import Mathlib

/-!
Verification development for the Stock-Market-Ticker repository.

The Python sources are shallowly embedded over exact rationals (`ℚ`):

* `analysis.py`   — technical indicators, Piotroski quality score, the
  composite fundamental scorer and sentiment mean;
* `models.py`     — the short-horizon forecaster (the fitted regression model is
  represented by the training data it was fitted on; the numeric predictor of
  the third-party ensemble model is an explicit function parameter);
* `strategy.py`   — `process_stock` and the post-scan phase of
  `run_full_analysis` (top-20 forecast refinement, boosting, allocation);
* `medium_term_strategy.py` — the two point-tally scores of the Big Bets engine;
* `portfolio_manager.py`    — the portfolio diff tracker.

Conventions: Python float literals are carried as exact rationals; `None`-able
dictionary entries are `Option ℚ`; Python truthiness of a number is `≠ 0` and of
a missing value is falsity; Python's stable `list.sort` is modelled by a stable
insertion sort.
-/

namespace StockTicker

/-! ### Technical Indicator Engine (`analysis.py`) -/

/-- Embedding of `Analyzer._calculate_sma`: for each index `i` the arithmetic
mean of the trailing `window` closes, `None` (here `none`) for the first
`window - 1` positions. -/
def calcSMA (prices : List ℚ) (window : ℕ) : List (Option ℚ) :=
  (List.range prices.length).map fun i =>
    if i + 1 < window then none
    else some (((prices.drop (i + 1 - window)).take window).sum / window)

/-- Embedding of `Analyzer._calculate_ema`: recursive smoothing with multiplier
`2 / (window + 1)`, seeded by the first value. -/
def calcEMA (prices : List ℚ) (window : ℕ) : List ℚ :=
  let m : ℚ := 2 / (window + 1)
  match prices with
  | [] => []
  | p :: rest =>
    (rest.foldl (fun acc price =>
      let e := (price - acc.2) * m + acc.2
      (acc.1 ++ [e], e)) ([p], p)).1

/-- Embedding of `Analyzer._calculate_rsi` (the pure-Python loop that the
function actually returns): every position defaults to the neutral `50`; for
inputs longer than `window`, positions `window + 1` onward hold Wilder's
smoothed RSI, with an `avg_loss = 0` step yielding exactly `100`. -/
def calcRSI (prices : List ℚ) (window : ℕ) : List ℚ :=
  let n := prices.length
  let base := List.replicate n (50 : ℚ)
  if n ≤ window then base
  else
    let delta := fun i => prices.getD i 0 - prices.getD (i - 1) 0
    let gains := (List.range' 1 window).map fun i =>
      let d := delta i; if 0 < d then d else 0
    let losses := (List.range' 1 window).map fun i =>
      let d := delta i; if 0 < d then 0 else -d
    let avgGain := gains.sum / window
    let avgLoss := losses.sum / window
    let step := fun (st : ℚ × ℚ × List ℚ) (i : ℕ) =>
      let d := delta i
      let gain := if 0 < d then d else 0
      let loss := if d < 0 then -d else 0
      let ag := (st.1 * ((window : ℚ) - 1) + gain) / window
      let al := (st.2.1 * ((window : ℚ) - 1) + loss) / window
      let r := if al = 0 then (100 : ℚ) else 100 - 100 / (1 + ag / al)
      (ag, al, st.2.2.set i r)
    ((List.range' (window + 1) (n - (window + 1))).foldl step (avgGain, avgLoss, base)).2.2

/-- One enriched price row, as produced by `Analyzer.calculate_technicals`:
the close plus the derived `RSI`, `SMA_50`, `SMA_200` and `MACD_Diff`
attributes (the two SMAs are absent — `None` — before their warm-up). -/
structure TechRow where
  close : ℚ
  rsi : ℚ
  sma50 : Option ℚ
  sma200 : Option ℚ
  macdDiff : ℚ
deriving Repr, DecidableEq

/-- Embedding of `Analyzer.calculate_technicals`: `None` for histories shorter
than 50 points, otherwise the history enriched with RSI(14), SMA(50), SMA(200)
and the MACD histogram `EMA12 − EMA26 − EMA9(EMA12 − EMA26)`. Only the `Close`
column of the input rows is consulted by the source, so the input is the list
of closes. -/
def calculateTechnicals (closes : List ℚ) : Option (List TechRow) :=
  if closes.length < 50 then none
  else
    let sma50 := calcSMA closes 50
    let sma200 := calcSMA closes 200
    let rsi := calcRSI closes 14
    let ema12 := calcEMA closes 12
    let ema26 := calcEMA closes 26
    let macdLine := ema12.zipWith (· - ·) ema26
    let signalLine := calcEMA macdLine 9
    let macdDiff := macdLine.zipWith (· - ·) signalLine
    some ((List.range closes.length).map fun i =>
      { close := closes.getD i 0
        rsi := rsi.getD i 50
        sma50 := (sma50.getD i none)
        sma200 := (sma200.getD i none)
        macdDiff := macdDiff.getD i 0 })

/-- The point tally of `Analyzer.get_technical_score` on the last enriched row:
RSI strictly between 40 and 70 gives 1, RSI at most 30 gives 2; a positive MACD
histogram gives 1; golden cross (both SMAs present, truthy, SMA50 above SMA200)
gives 1; close above a present, truthy SMA200 gives 1. -/
def techPoints (last : TechRow) : ℚ :=
  (if 40 < last.rsi ∧ last.rsi < 70 then 1 else if last.rsi ≤ 30 then 2 else 0)
  + (if 0 < last.macdDiff then 1 else 0)
  + (match last.sma50, last.sma200 with
     | some a, some b => if a ≠ 0 ∧ b ≠ 0 ∧ b < a then 1 else 0
     | _, _ => 0)
  + (match last.sma200 with
     | some b => if last.close ≠ 0 ∧ b ≠ 0 ∧ b < last.close then 1 else 0
     | none => 0)

/-- Embedding of `Analyzer.get_technical_score`: 0 for an empty list, otherwise
the accumulated points over the accumulated checks; the RSI check always adds 2
and the MACD, golden-cross and trend checks always add 1 each, so `checks` is
the constant 5. -/
def getTechnicalScore (rows : List TechRow) : ℚ :=
  match rows.getLast? with
  | none => 0
  | some last =>
    let score := techPoints last
    let checks : ℚ := 2 + 1 + 1 + 1
    if 0 < checks then score / checks else 0

/-! ### Fundamental Scorer (`analysis.py`) -/

/-- A `FundamentalsSnapshot`: the keys that the scoring code consults, each
possibly absent, plus a count of any further (unconsulted) keys so that the
Python emptiness test `not info` is representable. -/
structure Fundamentals where
  currentPrice : Option ℚ
  previousClose : Option ℚ
  trailingEps : Option ℚ
  bookValue : Option ℚ
  returnOnAssets : Option ℚ
  operatingCashflow : Option ℚ
  revenuePerShare : Option ℚ
  currentRatio : Option ℚ
  debtToEquity : Option ℚ
  trailingPE : Option ℚ
  pegRatio : Option ℚ
  returnOnEquity : Option ℚ
  otherKeys : ℕ
deriving Repr, DecidableEq

/-- Python's `not info` on the snapshot dictionary: true exactly when no key at
all is present. -/
def Fundamentals.isEmpty (info : Fundamentals) : Bool :=
  info.currentPrice = none ∧ info.previousClose = none ∧ info.trailingEps = none
    ∧ info.bookValue = none ∧ info.returnOnAssets = none
    ∧ info.operatingCashflow = none ∧ info.revenuePerShare = none
    ∧ info.currentRatio = none ∧ info.debtToEquity = none
    ∧ info.trailingPE = none ∧ info.pegRatio = none ∧ info.returnOnEquity = none
    ∧ info.otherKeys = 0

/-- Embedding of `Analyzer.get_piotroski_score`. Each tally point mirrors the
source's combination of truthiness and comparison (`roa and roa > 0`,
`debt_equity and debt_equity < 1`, ...); the result is Python's
`int((score / 5) * 9)`, i.e. the floor of the rescaled tally (the tally is
nonnegative, so `int` truncation is the floor). -/
def getPiotroskiScore (info : Fundamentals) : ℤ :=
  let roa := info.returnOnAssets.getD 0
  let p1 : ℕ := if roa ≠ 0 ∧ 0 < roa then 1 else 0
  let ocf := info.operatingCashflow.getD 0
  let p2 : ℕ := if ocf ≠ 0 ∧ 0 < ocf then 1 else 0
  let assetTurnover := info.revenuePerShare.getD 0
  let p3 : ℕ := if 0 < assetTurnover then 1 else 0
  let currentRatioV := info.currentRatio.getD 0
  let p4 : ℕ := if currentRatioV ≠ 0 ∧ 1 < currentRatioV then 1 else 0
  let debtEquity := info.debtToEquity.getD 0
  let p5 : ℕ := if debtEquity ≠ 0 ∧ debtEquity < 1 then 1 else 0
  let score := p1 + p2 + p3 + p4 + p5
  ⌊(score : ℚ) / 5 * 9⌋

/-- Comparison `p < math.sqrt g` for a nonnegative radicand `g`, expressed
without square roots: `p < √g ↔ p < 0 ∨ p² < g`. -/
def ltSqrt (p g : ℚ) : Prop := p < 0 ∨ p ^ 2 < g

instance (p g : ℚ) : Decidable (ltSqrt p g) := by unfold ltSqrt; infer_instance

/-- Embedding of `Analyzer.calculate_graham_number`. The source returns
`math.sqrt(22.5 · eps · bookValue)` when both are present, truthy and positive,
else `0`. The square root of a positive rational is irrational in general, so
the embedding carries the radicand: `some g` stands for the return value `√g`
(always positive) and `none` for the `0` ("no opinion") return. -/
def calculateGrahamNumberSq (info : Fundamentals) : Option ℚ :=
  match info.trailingEps, info.bookValue with
  | some eps, some bv =>
    if eps ≠ 0 ∧ bv ≠ 0 ∧ 0 < eps ∧ 0 < bv then some (45 / 2 * eps * bv) else none
  | _, _ => none

/-- Embedding of `Analyzer.score_fundamental`: weighted points over accumulated
checks. The valuation and quality checks always add 2 checks each; the P/E
check adds 1 when P/E is truthy, or when P/E is falsy but trailing EPS is
negative; the PEG and D/E checks add 1 when the key is present (`is not None`);
the ROE check adds 1 when ROE is truthy. Empty snapshot returns 0 outright. -/
def scoreFundamental (info : Fundamentals) : ℚ :=
  if info.isEmpty then 0
  else
    let grahamSq := calculateGrahamNumberSq info
    let currentPrice := (info.currentPrice.orElse fun _ => info.previousClose).getD 0
    let s1 : ℚ := match grahamSq with
      | some g => if currentPrice ≠ 0 ∧ ltSqrt currentPrice g then 2 else 0
      | none => 0
    let fScore := getPiotroskiScore info
    let s2 : ℚ := if 7 ≤ fScore then 2 else if 5 ≤ fScore then 1 else 0
    let pePart : ℚ × ℚ := match info.trailingPE with
      | some pe =>
        if pe ≠ 0 then (if 0 < pe ∧ pe < 40 then (1, 1) else (0, 1))
        else if info.trailingEps.getD 0 < 0 then (0, 1) else (0, 0)
      | none => if info.trailingEps.getD 0 < 0 then (0, 1) else (0, 0)
    let pegPart : ℚ × ℚ := match info.pegRatio with
      | some peg => (if 0 < peg ∧ peg < 2 then 1 else 0, 1)
      | none => (0, 0)
    let roePart : ℚ × ℚ := match info.returnOnEquity with
      | some roe => if roe ≠ 0 then (if 1 / 10 < roe then (1, 1) else (0, 1)) else (0, 0)
      | none => (0, 0)
    let dePart : ℚ × ℚ := match info.debtToEquity with
      | some de => (if de < 100 then 1 else 0, 1)
      | none => (0, 0)
    let score := s1 + s2 + pePart.1 + pegPart.1 + roePart.1 + dePart.1
    let checks := 2 + 2 + pePart.2 + pegPart.2 + roePart.2 + dePart.2
    if 0 < checks then score / checks else 0

/-- Embedding of `Analyzer.analyze_sentiment`. The VADER lexicon analyzer is an
external collaborator; its per-headline compound polarity scores (each in
`[-1, 1]`) are the input. Empty input gives the neutral `0.5`, otherwise the
mean polarity rescaled by `(mean + 1) / 2`. -/
def analyzeSentiment (polarities : List ℚ) : ℚ :=
  if polarities.isEmpty then 1 / 2
  else (polarities.sum / polarities.length + 1) / 2

/-! ### Short-Horizon Forecaster (`models.py`)

The `RandomForestRegressor` is a third-party numeric model; the embedding
represents a fitted model by the training data `(X, y)` it was fitted on and
takes the numeric predictor as an explicit function `Predictor` from the model
to a feature row's prediction. Everything else — the guard conditions, the
training-data construction, the recursive prediction loop and the ternary
scoring — is embedded from the source. -/

/-- Training data as built by `Forecaster.prepare_data`: the feature matrix and
the target vector. A fitted model is identified with its training data. -/
abbrev ForecastModel := List (List ℚ) × List ℚ

/-- The abstract numeric regressor: fitted model (identified with its training
data) and feature row to predicted value. -/
abbrev Predictor := ForecastModel → List ℚ → ℚ

/-- The population variance of a window. `np.std` (the volatility feature of
`Forecaster._extract_features`) is the square root of this value, which is
irrational in general; the embedding carries the radicand. On nonnegative
values the square root is a bijective recoding, and feature values flow only
into the abstract `Predictor`, never into a comparison of the source. -/
def popVariance (w : List ℚ) : ℚ :=
  let n : ℚ := w.length
  let mean := w.sum / n
  ((w.map fun x => (x - mean) ^ 2).sum) / n

/-- Embedding of `Forecaster._extract_features`: the raw window, then the
volatility (see `popVariance`), then the momentum
`(window[-1] - window[0]) / (window[0] + 1e-9)`. -/
def extractFeatures (w : List ℚ) : List ℚ :=
  w ++ [popVariance w, (w.getLastD 0 - w.headD 0) / (w.headD 0 + 1 / 10 ^ 9)]

/-- Embedding of `Forecaster.prepare_data`: `None` when the history has fewer
than `lookback + 5` closes, otherwise one feature row and one target per
sliding window of size `lookback`. -/
def prepareData (lookback : ℕ) (closes : List ℚ) : Option ForecastModel :=
  if closes.length < lookback + 5 then none
  else some
    ((List.range (closes.length - lookback)).map fun i =>
        extractFeatures ((closes.drop i).take lookback),
     (List.range (closes.length - lookback)).map fun i => closes.getD (i + lookback) 0)

/-- The `Forecaster` object state: the configured lookback and the `self.model`
attribute, `none` until a successful `train_model`. -/
structure Forecaster where
  lookback : ℕ
  model : Option ForecastModel
deriving Repr, DecidableEq

/-- Embedding of `Forecaster.train_model`: no state change when `prepare_data`
fails or yields fewer than 10 training rows; otherwise `self.model` is set to
the freshly fitted model. (The source also returns the model; the caller only
re-reads `self.model`, so the state suffices.) -/
def trainModel (f : Forecaster) (closes : List ℚ) : Forecaster :=
  match prepareData f.lookback closes with
  | none => f
  | some m => if m.1.length < 10 then f else { f with model := some m }

/-- The recursive prediction loop of `Forecaster.predict_next_days`: predict
one step from the current window's features, then roll the window (drop the
oldest value, append the prediction) and repeat. -/
def predictLoop (P : Predictor) (m : ForecastModel) : ℕ → List ℚ → List ℚ
  | 0, _ => []
  | days + 1, w =>
    let pred := P m (extractFeatures w)
    pred :: predictLoop P m days (w.drop 1 ++ [pred])

/-- Embedding of `Forecaster.predict_next_days`: train only when `self.model`
is `None`; if still `None` afterwards return no predictions; otherwise run the
recursive loop from the last `lookback` closes. -/
def predictNextDays (P : Predictor) (f : Forecaster) (closes : List ℚ) (days : ℕ) :
    Forecaster × List ℚ :=
  let f1 := if f.model.isSome then f else trainModel f closes
  match f1.model with
  | none => (f1, [])
  | some m => (f1, predictLoop P m days (closes.drop (closes.length - f1.lookback)))

/-- Embedding of `Forecaster.get_forecast_score`: neutral `0.5` on an empty
history or when no predictions are produced; otherwise 1 when the mean of the
5 predictions exceeds the last close by more than 2%, 0 when it is below the
last close, else `0.5`. -/
def getForecastScore (P : Predictor) (f : Forecaster) (closes : List ℚ) :
    Forecaster × ℚ :=
  if closes.isEmpty then (f, 1 / 2)
  else
    let currentPrice := closes.getLastD 0
    let res := predictNextDays P f closes 5
    if res.2.isEmpty then (res.1, 1 / 2)
    else
      let avgPred := res.2.sum / res.2.length
      if currentPrice * (102 / 100) < avgPred then (res.1, 1)
      else if avgPred < currentPrice then (res.1, 0)
      else (res.1, 1 / 2)

/-! ### Medium-Term (Big Bets) Engine (`medium_term_strategy.py`) -/

/-- One row of the medium-term fundamentals table, holding the keys that
`quality_score` and `roi_6to12_score` consult; absent keys take the source's
`row.get` defaults (`DebtToEquity` defaults to 1, `RSI` to 50, the rest
to 0). -/
structure MTRow where
  roce : Option ℚ
  roe : Option ℚ
  opm : Option ℚ
  freeCashFlow : Option ℚ
  debtToEquity : Option ℚ
  interestCoverage : Option ℚ
  promoterHolding : Option ℚ
  promoterHoldingChange3Y : Option ℚ
  salesGrowth3Y : Option ℚ
  profitGrowth3Y : Option ℚ
  qtrSalesGrowth : Option ℚ
  qtrProfitGrowth : Option ℚ
  cmp : Option ℚ
  dma200 : Option ℚ
  rsi : Option ℚ
deriving Repr, DecidableEq

/-- Embedding of `MediumTermEngine.quality_score`: an 11-check point tally. -/
def qualityScore (row : MTRow) : ℕ :=
  (if 15 < row.roce.getD 0 then 1 else 0)
  + (if 15 < row.roe.getD 0 then 1 else 0)
  + (if 12 < row.opm.getD 0 then 1 else 0)
  + (if 0 < row.freeCashFlow.getD 0 then 1 else 0)
  + (if row.debtToEquity.getD 1 < 1 / 2 ∨ 5 < row.interestCoverage.getD 0 then 1 else 0)
  + (if 50 < row.promoterHolding.getD 0 then 1 else 0)
  + (if 0 ≤ row.promoterHoldingChange3Y.getD 0 then 1 else 0)
  + (if 10 < row.salesGrowth3Y.getD 0 then 1 else 0)
  + (if 12 < row.profitGrowth3Y.getD 0 then 1 else 0)
  + (if row.dma200.getD 0 < row.cmp.getD 0 then 1 else 0)
  + (if 45 ≤ row.rsi.getD 50 ∧ row.rsi.getD 50 ≤ 70 then 1 else 0)

/-- Embedding of `MediumTermEngine.roi_6to12_score`: the same nine
quality/safety/growth checks, then the earnings trigger (quarterly profit
growth above 15 scores 2, quarterly sales growth above 10 scores 1), then the
two trend checks. -/
def roi6to12Score (row : MTRow) : ℕ :=
  (if 15 < row.roce.getD 0 then 1 else 0)
  + (if 15 < row.roe.getD 0 then 1 else 0)
  + (if 12 < row.opm.getD 0 then 1 else 0)
  + (if 0 < row.freeCashFlow.getD 0 then 1 else 0)
  + (if row.debtToEquity.getD 1 < 1 / 2 ∨ 5 < row.interestCoverage.getD 0 then 1 else 0)
  + (if 50 < row.promoterHolding.getD 0 then 1 else 0)
  + (if 0 ≤ row.promoterHoldingChange3Y.getD 0 then 1 else 0)
  + (if 10 < row.salesGrowth3Y.getD 0 then 1 else 0)
  + (if 12 < row.profitGrowth3Y.getD 0 then 1 else 0)
  + (if 15 < row.qtrProfitGrowth.getD 0 then 2 else 0)
  + (if 10 < row.qtrSalesGrowth.getD 0 then 1 else 0)
  + (if row.dma200.getD 0 < row.cmp.getD 0 then 1 else 0)
  + (if 45 ≤ row.rsi.getD 50 ∧ row.rsi.getD 50 ≤ 70 then 1 else 0)

/-! ### Recommendation Engine (`strategy.py`) -/

/-- The configured scoring weights. `technical`, `fundamental` and `sentiment`
are read with direct indexing (`self.weights['technical']`, ...); `forecast` is
read with `self.weights.get('forecast', 0)` and may be absent. -/
structure Weights where
  technical : ℚ
  fundamental : ℚ
  sentiment : ℚ
  forecast : Option ℚ
deriving Repr, DecidableEq

/-- One row of the accumulated result set (`ScoredEntity`): the fields of the
`process_stock` record that the downstream pipeline reads or writes. -/
structure ResultRow where
  ticker : String
  close : ℚ
  techScore : ℚ
  fundScore : ℚ
  sentScore : ℚ
  preScore : ℚ
  forecastScore : ℚ
  finalScore : ℚ
deriving Repr, DecidableEq

/-- One recommendation record: a result row's ticker plus the allocation fields
added in step 6 of `run_full_analysis` (the source copies the whole row; the
new fields are what the allocation step computes). -/
structure RecRow where
  ticker : String
  allocation : ℚ
  qty : ℤ
deriving Repr, DecidableEq

/-- Python's `int()` on a float: truncation toward zero. -/
def pyInt (x : ℚ) : ℤ := if 0 ≤ x then ⌊x⌋ else -⌊-x⌋

/-- Stable descending insertion of `x`: `x` is placed before the first element
whose key is at most `key x`, so earlier elements win ties. -/
def insertDesc (key : ResultRow → ℚ) (x : ResultRow) : List ResultRow → List ResultRow
  | [] => [x]
  | y :: ys => if key y ≤ key x then x :: y :: ys else y :: insertDesc key x ys

/-- Python's stable `list.sort(key=..., reverse=True)`, modelled by stable
insertion sort: descending by key, ties kept in input order. -/
def sortDesc (key : ResultRow → ℚ) (l : List ResultRow) : List ResultRow :=
  l.foldr (insertDesc key) []

/-- The loop body of step 4 of `run_full_analysis`, for one top candidate:
its forecast score (`forecastOf` abstracts the fresh history fetch plus
`Forecaster.get_forecast_score`) and its final score — pre-score plus weighted
forecast, boosted by `min(0.99, ×1.2)` when above `0.5` — keyed by ticker. -/
def forecastUpdate (w : Weights) (forecastOf : String → ℚ) (r : ResultRow) :
    String × ℚ × ℚ :=
  let fc := forecastOf r.ticker
  let fs0 := r.preScore + (w.forecast.getD 0) * fc
  let fs := if 1 / 2 < fs0 then min (99 / 100) (fs0 * (12 / 10)) else fs0
  (r.ticker, fc, fs)

/-- The merge of step 5 of `run_full_analysis` for one row: rows found in the
updates dictionary get the recomputed `Forecast_Score`/`Final_Score`, the rest
get `Final_Score := Pre_Score`. The dictionary is keyed by ticker with last
write winning, hence the reversed association-list lookup. -/
def mergeRow (updates : List (String × ℚ × ℚ)) (r : ResultRow) : ResultRow :=
  match (updates.reverse).lookup r.ticker with
  | some u => { r with forecastScore := u.1, finalScore := u.2 }
  | none => { r with finalScore := r.preScore }

/-- Embedding of steps 3–6 of `RecommendationEngine.run_full_analysis` — the
phase after the scan loop, operating on the accumulated result set: sort by
`Pre_Score` descending (stable), take the top 20, and unless `skip_forecast`
refresh them (`forecastUpdate`), merge the updates back (`mergeRow`) and
re-sort by `Final_Score`; finally allocate `budget / len(top_n)` to each of
the top `top_n` rows with whole-unit quantity `int(allocation / price)`
guarded by `price > 0`. -/
def finalizePhase (w : Weights) (skipForecast : Bool) (topN : ℕ) (budget : ℚ)
    (forecastOf : String → ℚ) (results0 : List ResultRow) :
    List ResultRow × List RecRow :=
  if results0.isEmpty then ([], [])
  else
    let results1 := sortDesc (fun r => r.preScore) results0
    let topCandidates := results1.take 20
    let results2 :=
      if skipForecast then results1
      else
        let updates := topCandidates.map (forecastUpdate w forecastOf)
        let merged := results1.map (mergeRow updates)
        sortDesc (fun r => r.finalScore) merged
    let topn := results2.take topN
    let recs :=
      if topn.isEmpty then []
      else
        let alloc := budget / topn.length
        topn.map fun r =>
          { ticker := r.ticker
            allocation := alloc
            qty := if 0 < r.close then pyInt (alloc / r.close) else 0 }
    (results2, recs)

/-- One run of `RecommendationEngine.run_full_analysis`, observationally: how
many entities the scan loop processed, how many upstream fetch calls were made,
and the final result and recommendation sets. -/
structure RunOutcome where
  processed : ℕ
  scanFetches : ℕ
  forecastFetches : ℕ
  results : List ResultRow
  recommendations : List RecRow
deriving Repr, DecidableEq

/-- Embedding of `RecommendationEngine.run_full_analysis` over an abstract
universe and a prior (resumed) result set. Entities whose ticker already
appears in the prior set are skipped; each remaining entity is run through
`process_stock` (abstracted by `perStock`, three upstream fetch calls each:
history, fundamentals, news) and successful rows are appended; then the
post-scan phase (`finalizePhase`) runs. The forecast pass re-fetches history
once per top candidate — `min 20 N` fetches on a nonempty result set unless
`skip_forecast`. The source also shuffles the universe before scanning, which
permutes only the scan order of the not-yet-processed entities; the embedding
keeps the given order. -/
def runFullAnalysis (univ : List String) (prior : List ResultRow)
    (perStock : String → Option ResultRow) (w : Weights) (skipForecast : Bool)
    (topN : ℕ) (budget : ℚ) (forecastOf : String → ℚ) : RunOutcome :=
  let processedTickers := prior.map fun r => r.ticker
  let toProcess := univ.filter fun t => decide (t ∉ processedTickers)
  let scanned := toProcess.filterMap perStock
  let results := prior ++ scanned
  let fin := finalizePhase w skipForecast topN budget forecastOf results
  { processed := toProcess.length
    scanFetches := 3 * toProcess.length
    forecastFetches :=
      if skipForecast || results.isEmpty then 0 else min 20 results.length
    results := fin.1
    recommendations := fin.2 }

/-- A Python runtime exception, as far as the embedding needs it. -/
inductive PyError where
  | attributeError : String → PyError
deriving Repr, DecidableEq

/-- The method table of the `Analyzer` class in `analysis.py`: exactly the
names the class body defines. `calculate_intrinsic_value` is not among them. -/
def analyzerMethodNames : List String :=
  ["__init__", "_calculate_sma", "_calculate_ema", "_calculate_rsi",
   "calculate_technicals", "get_piotroski_score", "calculate_graham_number",
   "score_fundamental", "get_investment_thesis", "get_technical_score",
   "analyze_sentiment"]

/-- The call `self.analyzer.calculate_intrinsic_value(funds)` in
`process_stock`: a Python attribute lookup on the `Analyzer` instance, raising
`AttributeError` when the class defines no such method. The `then` branch is
unreachable — the class defines no method of that name, so there is no source
body to embed and the dummy value is never produced. -/
def callAnalyzerIntrinsicValue (_info : Fundamentals) : Except PyError (ℚ × ℚ) :=
  if "calculate_intrinsic_value" ∈ analyzerMethodNames then .ok (0, 0)
  else .error (.attributeError "calculate_intrinsic_value")

/-- Embedding of `RecommendationEngine.process_stock` for one input row, given
the fetched history closes, fundamentals snapshot and headline polarities (the
three upstream fetches are the collaborators' results). The whole body runs
under the per-entity `try`/`except` that maps any exception to `None`; the two
early `return None`s (no history, insufficient technicals) are kept. The row
construction from line 46 of `strategy.py` onward sits after the
`calculate_intrinsic_value` call; the embedding keeps its score fields (the
narrative `Reason` string and fundamental passthrough columns of that
unreachable tail are not modelled). The inner `try` around
`score_fundamental` is the total function itself. -/
def processStock (w : Weights) (ticker : String) (hist : List ℚ)
    (funds : Fundamentals) (news : List ℚ) : Option ResultRow :=
  let body : Except PyError (Option ResultRow) := do
    if hist.isEmpty then return none
    match calculateTechnicals hist with
    | none => return none
    | some histTech =>
      let techScore := getTechnicalScore histTech
      let fundScore := scoreFundamental funds
      let sentScore := analyzeSentiment news
      let _iv ← callAnalyzerIntrinsicValue funds
      let preScore := w.technical * techScore + w.fundamental * fundScore
        + w.sentiment * sentScore
      let lastPrice := (histTech.getLastD ⟨0, 50, none, none, 0⟩).close
      return some
        { ticker := ticker, close := lastPrice, techScore := techScore
          fundScore := fundScore, sentScore := sentScore, preScore := preScore
          forecastScore := 0, finalScore := preScore }
  match body with
  | .ok r => r
  | .error _ => none

/-! ### Portfolio Diff Tracker (`portfolio_manager.py`) -/

/-- One `PortfolioHistoryEntry` of the append-only ledger. Dates are abstracted
to naturals ordered like the source's date strings. -/
structure LedgerEntry where
  date : ℕ
  ticker : String
  name : String
  action : String
  rank : ℤ
  price : ℚ
  score : ℚ
deriving Repr, DecidableEq

/-- Today's input to the diff tracker: the fields of a recommendation row that
`update_portfolio` reads. -/
structure PortfolioRec where
  ticker : String
  name : String
  close : ℚ
  finalScore : ℚ
deriving Repr, DecidableEq

/-- First-appearance deduplication, modelling the contents of the Python
`set(...)` of held tickers (set iteration order is unspecified in Python; the
embedding fixes first-appearance order, which affects only the relative order
of `DROPOUT` records). -/
def dedupFirst (l : List String) : List String :=
  l.foldl (fun acc x => if x ∈ acc then acc else acc ++ [x]) []

/-- Embedding of `PortfolioManager.update_portfolio`: yesterday's held set is
the tickers of the most recent prior date whose action was `HOLD`; each of
today's rows becomes `HOLD` if held yesterday, else `NEW_ENTRY`, with rank its
1-based position; each held ticker absent today becomes a `DROPOUT` record
reusing the name and price of its first ledger row at that date (rank −1,
score 0). Returns `(today's records, updated ledger)`; the ledger is the old
one with today's records appended. The held set is a Python `set` (iteration
order unspecified); the embedding takes tickers in first-appearance order. -/
def updatePortfolio (today : ℕ) (history : List LedgerEntry)
    (current : List PortfolioRec) : List LedgerEntry × List LedgerEntry :=
  let lastDate := (history.map fun e => e.date).max?.getD 0
  let previousTickers : List String :=
    if history.isEmpty then []
    else dedupFirst ((history.filter fun e =>
      decide (e.date = lastDate) && decide (e.action = "HOLD")).map
        fun e => e.ticker)
  let newEntries := current.enum.map fun p =>
    { date := today, ticker := p.2.ticker, name := p.2.name
      action := if p.2.ticker ∈ previousTickers then "HOLD" else "NEW_ENTRY"
      rank := (p.1 : ℤ) + 1, price := p.2.close
      score := p.2.finalScore : LedgerEntry }
  let currentTickers := current.map fun r => r.ticker
  let dropouts := (previousTickers.filter fun t => decide (t ∉ currentTickers)).map
    fun t =>
      let prev := (history.filter fun e =>
        decide (e.date = lastDate) && decide (e.ticker = t)).headD
        ⟨0, t, "", "", 0, 0, 0⟩
      { date := today, ticker := t, name := prev.name, action := "DROPOUT"
        rank := -1, price := prev.price, score := 0 : LedgerEntry }
  (newEntries ++ dropouts, history ++ (newEntries ++ dropouts))

/-! ### Helper lemmas -/

theorem qne_and_pos (x : ℚ) : (x ≠ 0 ∧ 0 < x) ↔ 0 < x :=
  ⟨fun h => h.2, fun h => ⟨ne_of_gt h, h⟩⟩

theorem qne_and_one_lt (x : ℚ) : (x ≠ 0 ∧ 1 < x) ↔ 1 < x :=
  ⟨fun h => h.2, fun h => ⟨ne_of_gt (lt_trans zero_lt_one h), h⟩⟩

theorem addLe {a b c d : ℕ} (h1 : a ≤ c) (h2 : b ≤ d) : a + b ≤ c + d :=
  Nat.add_le_add h1 h2

theorem iteLe {c : Prop} [Decidable c] {k : ℕ} : (if c then k else 0) ≤ k := by
  split <;> omega

/-! ### Claim C6 — the quality scorer's tally and rescaling -/

/-- The quality scorer exactly as the spec words it: one point per condition
(positive return-on-assets, positive operating cash flow, revenue-per-share
proxy > 0, current ratio > 1, debt/equity < 1), the raw 0–5 tally rescaled by
`(tally / 5) * 9` with no truncation. -/
def piotroskiSpecScore (info : Fundamentals) : ℚ :=
  let tally : ℕ :=
    (if 0 < info.returnOnAssets.getD 0 then 1 else 0)
    + (if 0 < info.operatingCashflow.getD 0 then 1 else 0)
    + (if 0 < info.revenuePerShare.getD 0 then 1 else 0)
    + (if 1 < info.currentRatio.getD 0 then 1 else 0)
    + (match info.debtToEquity with
       | some de => if de < 1 then 1 else 0
       | none => 0)
  (tally : ℚ) / 5 * 9

/-- The tally as the code scores it — the spec's five conditions except that a
present debt/equity must also be nonzero (Python truthiness) — rescaled by
`(tally / 5) * 9` and truncated to an integer by Python's `int`. -/
def piotroskiAmendedScore (info : Fundamentals) : ℤ :=
  let tally : ℕ :=
    (if 0 < info.returnOnAssets.getD 0 then 1 else 0)
    + (if 0 < info.operatingCashflow.getD 0 then 1 else 0)
    + (if 0 < info.revenuePerShare.getD 0 then 1 else 0)
    + (if 1 < info.currentRatio.getD 0 then 1 else 0)
    + (match info.debtToEquity with
       | some de => if de ≠ 0 ∧ de < 1 then 1 else 0
       | none => 0)
  ⌊(tally : ℚ) / 5 * 9⌋

/-- A snapshot whose only usable key is a positive return-on-assets: its tally
is 1. -/
def c6Snapshot : Fundamentals :=
  ⟨none, none, none, none, some 1, none, none, none, none, none, none, none, 0⟩

/-- Claim C6, counterexample: on a snapshot with exactly one of the five
points, `get_piotroski_score` returns `int((1/5)*9) = 1`, not the claimed
`(1/5)*9 = 9/5` — the returned value is the truncation of the claimed
formula, not the formula itself. -/
theorem c6_truncation_counterexample :
    (getPiotroskiScore c6Snapshot : ℚ) ≠ piotroskiSpecScore c6Snapshot := by
  have h1 : getPiotroskiScore c6Snapshot = 1 := by
    unfold getPiotroskiScore c6Snapshot
    norm_num
  have h2 : piotroskiSpecScore c6Snapshot = 9 / 5 := by
    unfold piotroskiSpecScore c6Snapshot
    norm_num
  rw [h1, h2]
  norm_num

/-- Claim C6, amended: for every fundamentals snapshot, `get_piotroski_score`
awards one point each for positive return-on-assets, positive operating cash
flow, revenue-per-share proxy > 0, current ratio > 1, and a **nonzero**
debt/equity < 1 (a present debt/equity of exactly 0 scores no point under
Python truthiness), and returns the 0–5 tally rescaled to 0–9 by
`(tally / 5) * 9` **truncated to an integer** (Python `int`, the floor here). -/
theorem c6_piotroski_floor (info : Fundamentals) :
    getPiotroskiScore info = piotroskiAmendedScore info := by
  unfold getPiotroskiScore piotroskiAmendedScore
  rcases hde : info.debtToEquity with _ | de <;>
    simp only [hde, Option.getD_some, Option.getD_none, qne_and_pos,
      qne_and_one_lt]
  all_goals norm_num

/-! ### Claim C7 — medium-term score ranges -/

/-- A medium-term row triggering every check of `roi_6to12_score`. -/
def c7Row : MTRow :=
  ⟨some 20, some 20, some 15, some 1, some (3 / 10), some 10, some 60, some 0,
   some 15, some 15, some 15, some 20, some 100, some 50, some 50⟩

/-- Claim C7, counterexample: the ROI tally reaches 14 (nine base checks, the
double-weighted quarterly-profit trigger, the quarterly-sales trigger and the
two trend checks sum to `9 + 2 + 1 + 1 + 1 = 14`), exceeding the claimed upper
end 13. -/
theorem c7_roi_fourteen : roi6to12Score c7Row = 14 ∧ 13 < roi6to12Score c7Row := by
  have h : roi6to12Score c7Row = 14 := by
    unfold roi6to12Score c7Row
    norm_num
  exact ⟨h, by omega⟩

/-- Claim C7, amended: for every input row of the medium-term engine,
`QualityScore` lies in 0–11 and `ROI_6to12_Score` lies in 0–**14** (both are
nonnegative tallies by construction), with the quarterly-profit earnings
trigger weighted double in the ROI tally. -/
theorem c7_score_bounds (row : MTRow) :
    qualityScore row ≤ 11 ∧ roi6to12Score row ≤ 14 := by
  constructor
  · have h : qualityScore row ≤ 1 + 1 + 1 + 1 + 1 + 1 + 1 + 1 + 1 + 1 + 1 := by
      unfold qualityScore
      exact addLe (addLe (addLe (addLe (addLe (addLe (addLe (addLe (addLe
        (addLe iteLe iteLe) iteLe) iteLe) iteLe) iteLe) iteLe) iteLe) iteLe)
        iteLe) iteLe
    exact le_trans h (by norm_num)
  · have h : roi6to12Score row ≤
        1 + 1 + 1 + 1 + 1 + 1 + 1 + 1 + 1 + 2 + 1 + 1 + 1 := by
      unfold roi6to12Score
      exact addLe (addLe (addLe (addLe (addLe (addLe (addLe (addLe (addLe
        (addLe (addLe (addLe iteLe iteLe) iteLe) iteLe) iteLe) iteLe) iteLe)
        iteLe) iteLe) iteLe) iteLe) iteLe) iteLe
    exact le_trans h (by norm_num)

/-! ### Claim C8 — zero usable keys gives fundamental score 0 -/

/-- No key consulted by the fundamental scorer is present (further, unconsulted
keys may or may not be present). -/
def Fundamentals.noUsableKeys (info : Fundamentals) : Prop :=
  info.currentPrice = none ∧ info.previousClose = none
    ∧ info.trailingEps = none ∧ info.bookValue = none
    ∧ info.returnOnAssets = none ∧ info.operatingCashflow = none
    ∧ info.revenuePerShare = none ∧ info.currentRatio = none
    ∧ info.debtToEquity = none ∧ info.trailingPE = none
    ∧ info.pegRatio = none ∧ info.returnOnEquity = none

/-- Claim C8: for every fundamentals snapshot with zero usable keys — whether
the dictionary is empty (the early `not info` return) or holds only keys the
scorer never consults (score 0 over the 4 unconditional checks) —
`score_fundamental` returns exactly 0. -/
theorem c8_empty_fundamentals_zero (info : Fundamentals)
    (h : info.noUsableKeys) : scoreFundamental info = 0 := by
  obtain ⟨h1, h2, h3, h4, h5, h6, h7, h8, h9, h10, h11, h12⟩ := h
  unfold scoreFundamental
  split
  · rfl
  · simp only [calculateGrahamNumberSq, getPiotroskiScore, h1, h2, h3, h4, h5,
      h6, h7, h8, h9, h10, h11, h12, Option.getD_none, Option.orElse_none]
    norm_num

/-- A snapshot that is nonempty (three unconsulted keys) but has no usable
key. -/
def c8Snapshot : Fundamentals :=
  ⟨none, none, none, none, none, none, none, none, none, none, none, none, 3⟩

/-- Witness for C8 at a concrete nonempty snapshot with zero usable keys. -/
theorem c8_empty_fundamentals_zero_witness : scoreFundamental c8Snapshot = 0 :=
  c8_empty_fundamentals_zero c8Snapshot
    ⟨rfl, rfl, rfl, rfl, rfl, rfl, rfl, rfl, rfl, rfl, rfl, rfl⟩

/-! ### Claim C10 — the technical score's constant denominator -/

/-- On a last row with no `SMA_200` the tally is at most 3: the RSI check can
contribute at most 2, the MACD check at most 1, and both SMA checks fail their
truthiness guard. -/
theorem techPoints_le_three (c r : ℚ) (s50 : Option ℚ) (m : ℚ) :
    techPoints ⟨c, r, s50, none, m⟩ ≤ 3 := by
  unfold techPoints
  rcases s50 with _ | a <;> split_ifs <;> norm_num

/-- Claim C10: `get_technical_score` always divides the accumulated points by
the constant check total 5 (every check increments `checks` unconditionally);
consequently, for every history of length between 50 and 199 — where
`calculate_technicals` leaves `SMA_200` absent on the last row, so neither the
golden-cross nor the close-above-SMA200 check can score — the technical score
is at most `3/5`. -/
theorem c10_technical_denominator :
    (∀ (rows : List TechRow) (last : TechRow), rows.getLast? = some last →
      getTechnicalScore rows = techPoints last / 5)
    ∧ (∀ closes : List ℚ, 50 ≤ closes.length → closes.length ≤ 199 →
      getTechnicalScore ((calculateTechnicals closes).getD []) ≤ 3 / 5) := by
  constructor
  · intro rows last h
    unfold getTechnicalScore
    rw [h]
    norm_num
  · intro closes h50 h199
    have hn : 0 < closes.length := by omega
    unfold calculateTechnicals
    rw [if_neg (by omega)]
    simp only [Option.getD_some]
    have hlast :
        ((List.range closes.length).map fun i =>
          ({ close := closes.getD i 0
             rsi := (calcRSI closes 14).getD i 50
             sma50 := ((calcSMA closes 50).getD i none)
             sma200 := ((calcSMA closes 200).getD i none)
             macdDiff := ((calcEMA closes 12).zipWith (· - ·) (calcEMA closes 26)).zipWith
               (· - ·) (calcEMA (((calcEMA closes 12).zipWith (· - ·) (calcEMA closes 26))) 9)
               |>.getD i 0 } : TechRow)).getLast? = some
          { close := closes.getD (closes.length - 1) 0
            rsi := (calcRSI closes 14).getD (closes.length - 1) 50
            sma50 := ((calcSMA closes 50).getD (closes.length - 1) none)
            sma200 := ((calcSMA closes 200).getD (closes.length - 1) none)
            macdDiff := ((calcEMA closes 12).zipWith (· - ·) (calcEMA closes 26)).zipWith
              (· - ·) (calcEMA (((calcEMA closes 12).zipWith (· - ·) (calcEMA closes 26))) 9)
              |>.getD (closes.length - 1) 0 } := by
      rw [List.getLast?_eq_getElem?]
      simp only [List.length_map, List.length_range]
      rw [List.getElem?_map, List.getElem?_range (by omega)]
      rfl
    have hsma : (calcSMA closes 200).getD (closes.length - 1) none = none := by
      unfold calcSMA
      rw [List.getD_eq_getElem?_getD, List.getElem?_map,
        List.getElem?_range (by omega)]
      simp only [Option.map_some', Option.getD_some]
      rw [if_pos (by omega)]
    unfold getTechnicalScore
    rw [hlast]
    simp only
    rw [if_pos (by norm_num)]
    rw [hsma]
    have hb := techPoints_le_three (closes.getD (closes.length - 1) 0)
      ((calcRSI closes 14).getD (closes.length - 1) 50)
      ((calcSMA closes 50).getD (closes.length - 1) none)
      (((calcEMA closes 12).zipWith (· - ·) (calcEMA closes 26)).zipWith
        (· - ·) (calcEMA (((calcEMA closes 12).zipWith (· - ·) (calcEMA closes 26))) 9)
        |>.getD (closes.length - 1) 0)
    rw [show (2 + 1 + 1 + 1 : ℚ) = 5 by norm_num]
    linarith [hb]

/-- A constant 50-point history and a singleton enriched row, for the
witness. -/
def c10History : List ℚ := List.replicate 50 1

/-- One enriched row with neutral values and no SMAs. -/
def c10Row : TechRow := ⟨1, 50, none, none, 0⟩

/-- Witness for C10: both parts applied at concrete inputs. -/
theorem c10_technical_denominator_witness :
    getTechnicalScore [c10Row] = techPoints c10Row / 5
    ∧ getTechnicalScore ((calculateTechnicals c10History).getD []) ≤ 3 / 5 :=
  ⟨c10_technical_denominator.1 [c10Row] c10Row rfl,
   c10_technical_denominator.2 c10History (by norm_num [c10History])
     (by norm_num [c10History])⟩

/-! ### Claim C1 — `process_stock` always returns `None` -/

/-- Claim C1: for every input row — whatever the fetched history, fundamentals
and headlines — `process_stock` returns `None`: the early returns yield `None`,
and on every other path the call to the undefined
`Analyzer.calculate_intrinsic_value` raises an `AttributeError` that the
per-entity exception handler absorbs into `None`. No `ScoredEntity` is ever
produced by a fresh scan. -/
theorem c1_process_stock_always_none (w : Weights) (ticker : String)
    (hist : List ℚ) (funds : Fundamentals) (news : List ℚ) :
    processStock w ticker hist funds news = none := by
  have hm : "calculate_intrinsic_value" ∉ analyzerMethodNames := by decide
  unfold processStock
  by_cases he : hist.isEmpty <;>
    rcases ht : calculateTechnicals hist with _ | rows <;>
      simp [he, ht, callAnalyzerIntrinsicValue, hm, bind, Except.bind, pure,
        Except.pure]

/-! ### Claim C5 — the forecaster's neutral-history threshold -/

/-- A predictor that ignores model and features; the untrained paths of the
forecaster never consult the predictor, so any instance exhibits them. -/
def zeroPredictor : Predictor := fun _ _ => 0

/-- A constant history of exactly `lookback + 5` points for lookback 1. -/
def c5History : List ℚ := List.replicate 6 1

/-- Claim C5, counterexample: a history of exactly `lookback + 5` points (here
lookback 1, six points) makes `prepare_data` succeed with only 5 training rows,
so `train_model`'s `len(X) < 10` guard refuses to fit: contrary to the claim,
no model is trained and the neutral `0.5` is returned. -/
theorem c5_threshold_counterexample :
    c5History.length = 1 + 5
    ∧ (getForecastScore zeroPredictor ⟨1, none⟩ c5History).1.model = none
    ∧ (getForecastScore zeroPredictor ⟨1, none⟩ c5History).2 = 1 / 2 := by
  refine ⟨by norm_num [c5History], ?_, ?_⟩ <;>
    norm_num [getForecastScore, predictNextDays, trainModel, prepareData,
      c5History]

/-- On a fresh forecaster, training succeeds exactly on histories of at least
`lookback + 10` points, in which case the model is the prepared training
data. -/
theorem trainModel_fresh (lookback : ℕ) (closes : List ℚ) :
    trainModel ⟨lookback, none⟩ closes =
      if lookback + 10 ≤ closes.length
      then ⟨lookback, prepareData lookback closes⟩
      else ⟨lookback, none⟩ := by
  unfold trainModel
  rcases h : prepareData lookback closes with _ | m
  · have hlen : closes.length < lookback + 5 := by
      by_contra hc
      unfold prepareData at h
      rw [if_neg hc] at h
      cases h
    simp only
    rw [if_neg (by omega)]
  · have hlen : ¬ closes.length < lookback + 5 := by
      intro hc
      unfold prepareData at h
      rw [if_pos hc] at h
      cases h
    have hXlen : m.1.length = closes.length - lookback := by
      unfold prepareData at h
      rw [if_neg hlen] at h
      cases h
      simp
    simp only
    by_cases h10 : m.1.length < 10
    · rw [if_pos h10, if_neg (by omega)]
    · rw [if_neg h10, if_pos (by omega)]

/-- Claim C5, amended: on a fresh forecaster, `get_forecast_score` returns the
neutral `0.5` and trains no model exactly for histories shorter than
`lookback + 10` points (`prepare_data` requires `lookback + 5`, and
`train_model` additionally requires at least 10 training rows, i.e.
`lookback + 10` points); for every history of at least `lookback + 10` points
it fits and stores the model on the prepared training data and returns one of
the ternary scores 0, 0.5, 1. -/
theorem c5_training_threshold (P : Predictor) (lookback : ℕ) (closes : List ℚ) :
    (closes.length < lookback + 10 →
      (getForecastScore P ⟨lookback, none⟩ closes).1.model = none
      ∧ (getForecastScore P ⟨lookback, none⟩ closes).2 = 1 / 2)
    ∧ (lookback + 10 ≤ closes.length →
      (getForecastScore P ⟨lookback, none⟩ closes).1.model
        = prepareData lookback closes
      ∧ ((getForecastScore P ⟨lookback, none⟩ closes).2 = 0
         ∨ (getForecastScore P ⟨lookback, none⟩ closes).2 = 1 / 2
         ∨ (getForecastScore P ⟨lookback, none⟩ closes).2 = 1)) := by
  constructor
  · intro hshort
    unfold getForecastScore predictNextDays
    rw [trainModel_fresh,
      if_neg (show ¬ lookback + 10 ≤ closes.length by omega)]
    by_cases he : closes.isEmpty <;> simp [he]
  · intro hlong
    have hne : closes.isEmpty = false := by
      rcases closes with _ | ⟨a, t⟩
      · simp at hlong
      · simp
    obtain ⟨m, hm⟩ : ∃ m, prepareData lookback closes = some m := by
      unfold prepareData
      rw [if_neg (show ¬ closes.length < lookback + 5 by omega)]
      exact ⟨_, rfl⟩
    unfold getForecastScore predictNextDays
    rw [trainModel_fresh, if_pos hlong, hm, hne]
    simp only [Bool.false_eq_true, if_false, Option.isSome_none, predictLoop,
      List.isEmpty_cons]
    constructor
    · split_ifs <;> rfl
    · split_ifs <;> simp

/-- An 11-point constant history: `lookback + 10` points for lookback 1. -/
def c5TrainHistory : List ℚ := List.replicate 11 1

/-- Witness for C5 (amended): both branches of the threshold at concrete
histories of 6 and 11 points with lookback 1. -/
theorem c5_training_threshold_witness :
    ((getForecastScore zeroPredictor ⟨1, none⟩ c5History).1.model = none
      ∧ (getForecastScore zeroPredictor ⟨1, none⟩ c5History).2 = 1 / 2)
    ∧ ((getForecastScore zeroPredictor ⟨1, none⟩ c5TrainHistory).1.model
        = prepareData 1 c5TrainHistory
      ∧ ((getForecastScore zeroPredictor ⟨1, none⟩ c5TrainHistory).2 = 0
         ∨ (getForecastScore zeroPredictor ⟨1, none⟩ c5TrainHistory).2 = 1 / 2
         ∨ (getForecastScore zeroPredictor ⟨1, none⟩ c5TrainHistory).2 = 1)) :=
  ⟨(c5_training_threshold zeroPredictor 1 c5History).1 (by norm_num [c5History]),
   (c5_training_threshold zeroPredictor 1 c5TrainHistory).2
     (by norm_num [c5TrainHistory])⟩

/-! ### Claim C2 — model state persists across forecaster calls -/

/-- The head of a mapped range is the image of 0. -/
theorem headD_map_range (f : ℕ → ℚ) (n : ℕ) (d : ℚ) :
    ((List.range (n + 1)).map f).headD d = f 0 := by
  rw [List.range_succ_eq_map]
  simp

/-- A predictor that outputs the first training target of the model it was
fitted on — a minimal instance of the defining property of any regressor,
that its predictions depend on the data it was fitted on. -/
def headTargetPredictor : Predictor := fun m _ => m.2.headD 0

/-- Eleven days closing at 1. -/
def c2HistoryOne : List ℚ := [1, 1, 1, 1, 1, 1, 1, 1, 1, 1, 1]

/-- Eleven days closing at 2. -/
def c2HistoryTwo : List ℚ := [2, 2, 2, 2, 2, 2, 2, 2, 2, 2, 2]

/-- The training data prepared from `c2HistoryOne` with lookback 1. -/
theorem c2_prep_one : prepareData 1 c2HistoryOne
    = some ((List.range 10).map fun i =>
        extractFeatures ((c2HistoryOne.drop i).take 1),
      (List.range 10).map fun i => c2HistoryOne.getD (i + 1) 0) := by
  unfold prepareData
  norm_num [c2HistoryOne]

/-- The training data prepared from `c2HistoryTwo` with lookback 1. -/
theorem c2_prep_two : prepareData 1 c2HistoryTwo
    = some ((List.range 10).map fun i =>
        extractFeatures ((c2HistoryTwo.drop i).take 1),
      (List.range 10).map fun i => c2HistoryTwo.getD (i + 1) 0) := by
  unfold prepareData
  norm_num [c2HistoryTwo]

/-- After a fresh call on `c2HistoryOne` the forecaster state holds the model
fitted on `c2HistoryOne`. -/
theorem c2_state_after_one :
    (getForecastScore headTargetPredictor ⟨1, none⟩ c2HistoryOne).1
      = ⟨1, prepareData 1 c2HistoryOne⟩ := by
  have he1 : c2HistoryOne.isEmpty = false := rfl
  unfold getForecastScore predictNextDays
  rw [trainModel_fresh,
    if_pos (show 1 + 10 ≤ c2HistoryOne.length by norm_num [c2HistoryOne]),
    c2_prep_one]
  simp only [predictLoop, Option.isSome_none, Bool.false_eq_true, if_false,
    List.isEmpty_cons, he1]
  rw [← c2_prep_one]
  split_ifs <;> rfl

/-- Claim C2, refutation (the bug): after `get_forecast_score` has run once on
one history, a second call on a different history does not retrain — it reuses
the model fitted on the first history (third conjunct), and its score differs
from the score a fresh forecaster gives the same history (0 versus 0.5 here):
with the model represented by its training targets and the predictor reading
them, the stale model predicts 1 while the second history closes at 2. -/
theorem c2_model_reuse :
    ((getForecastScore headTargetPredictor
        (getForecastScore headTargetPredictor ⟨1, none⟩ c2HistoryOne).1
        c2HistoryTwo).2 = 0)
    ∧ ((getForecastScore headTargetPredictor ⟨1, none⟩ c2HistoryTwo).2 = 1 / 2)
    ∧ ((getForecastScore headTargetPredictor
        (getForecastScore headTargetPredictor ⟨1, none⟩ c2HistoryOne).1
        c2HistoryTwo).1
      = (getForecastScore headTargetPredictor ⟨1, none⟩ c2HistoryOne).1) := by
  have hpredOne : ∀ feats : List ℚ,
      headTargetPredictor
        ((List.range 10).map fun i =>
          extractFeatures ((c2HistoryOne.drop i).take 1),
        (List.range 10).map fun i => c2HistoryOne.getD (i + 1) 0) feats = 1 := by
    intro feats
    unfold headTargetPredictor
    simp only
    rw [show (10 : ℕ) = 9 + 1 from rfl, headD_map_range]
    norm_num [c2HistoryOne]
  have hpredTwo : ∀ feats : List ℚ,
      headTargetPredictor
        ((List.range 10).map fun i =>
          extractFeatures ((c2HistoryTwo.drop i).take 1),
        (List.range 10).map fun i => c2HistoryTwo.getD (i + 1) 0) feats = 2 := by
    intro feats
    unfold headTargetPredictor
    simp only
    rw [show (10 : ℕ) = 9 + 1 from rfl, headD_map_range]
    norm_num [c2HistoryTwo]
  have he2 : c2HistoryTwo.isEmpty = false := rfl
  refine ⟨?_, ?_, ?_⟩
  · rw [c2_state_after_one, c2_prep_one]
    unfold getForecastScore predictNextDays
    simp only [predictLoop, Option.isSome_some, if_true, List.isEmpty_cons,
      Bool.false_eq_true, if_false, he2, hpredOne]
    norm_num [c2HistoryTwo]
  · unfold getForecastScore predictNextDays
    rw [trainModel_fresh,
      if_pos (show 1 + 10 ≤ c2HistoryTwo.length by norm_num [c2HistoryTwo]),
      c2_prep_two]
    simp only [predictLoop, Option.isSome_none, Bool.false_eq_true, if_false,
      List.isEmpty_cons, he2, hpredTwo]
    norm_num [c2HistoryTwo]
  · rw [c2_state_after_one, c2_prep_one]
    unfold getForecastScore predictNextDays
    simp only [predictLoop, Option.isSome_some, if_true, List.isEmpty_cons,
      Bool.false_eq_true, if_false, he2, hpredOne]
    rw [← c2_prep_one]
    split_ifs <;> rfl

/-! ### Claims C3 and C4 — the post-scan phase -/

/-- Stable descending insertion permutes. -/
theorem insertDesc_perm (key : ResultRow → ℚ) (x : ResultRow)
    (l : List ResultRow) : (insertDesc key x l).Perm (x :: l) := by
  induction l with
  | nil => simp [insertDesc]
  | cons y ys ih =>
    unfold insertDesc
    split_ifs
    · exact List.Perm.refl _
    · exact (ih.cons y).trans (List.Perm.swap x y ys)

/-- The stable sort is a permutation of its input. -/
theorem sortDesc_perm (key : ResultRow → ℚ) (l : List ResultRow) :
    (sortDesc key l).Perm l := by
  induction l with
  | nil => exact List.Perm.refl _
  | cons x xs ih =>
    simp only [sortDesc, List.foldr_cons]
    exact (insertDesc_perm key x _).trans (ih.cons x)

/-- Membership is invariant under the stable sort. -/
theorem mem_sortDesc {key : ResultRow → ℚ} {l : List ResultRow}
    {r : ResultRow} : r ∈ sortDesc key l ↔ r ∈ l :=
  (sortDesc_perm key l).mem_iff

/-- An association-list hit is a member of the list. -/
theorem mem_of_lookup_eq_some {β : Type} {l : List (String × β)} {a : String}
    {b : β} (h : l.lookup a = some b) : (a, b) ∈ l := by
  induction l with
  | nil => simp [List.lookup] at h
  | cons x xs ih =>
    rcases x with ⟨k, v⟩
    rw [List.lookup] at h
    cases hk : a == k
    · simp only [hk] at h
      exact List.mem_cons_of_mem _ (ih h)
    · simp only [hk] at h
      cases h
      rw [beq_iff_eq] at hk
      subst hk
      exact List.mem_cons_self _ _

/-- The merge step rewrites only score fields, never the ticker. -/
theorem mergeRow_ticker (updates : List (String × ℚ × ℚ)) (r : ResultRow) :
    (mergeRow updates r).ticker = r.ticker := by
  unfold mergeRow
  rcases h : (updates.reverse).lookup r.ticker with _ | u <;> simp [h]

/-- The post-scan phase permutes the ticker column: sorting permutes rows and
the merge step rewrites only score fields. -/
theorem finalize_perm_tickers (w : Weights) (skipForecast : Bool) (topN : ℕ)
    (budget : ℚ) (forecastOf : String → ℚ) (results0 : List ResultRow) :
    ((finalizePhase w skipForecast topN budget forecastOf results0).1.map
      fun r => r.ticker).Perm (results0.map fun r => r.ticker) := by
  unfold finalizePhase
  by_cases h0 : results0.isEmpty
  · rw [if_pos h0]
    rw [List.isEmpty_iff] at h0
    subst h0
    exact List.Perm.refl _
  · rw [if_neg h0]
    simp only
    rcases skipForecast with _ | _
    · simp only [Bool.false_eq_true, if_false]
      have hmap : ((sortDesc (fun r => r.preScore) results0).map
            (mergeRow (((sortDesc (fun r => r.preScore) results0).take 20).map
              (forecastUpdate w forecastOf)))).map (fun r => r.ticker)
          = (sortDesc (fun r => r.preScore) results0).map (fun r => r.ticker) := by
        rw [List.map_map]
        exact List.map_congr_left fun r _ => mergeRow_ticker _ r
      refine ((sortDesc_perm _ _).map (fun r => r.ticker)).trans ?_
      rw [hmap]
      exact (sortDesc_perm _ _).map fun r => r.ticker
    · rw [if_pos rfl]
      exact (sortDesc_perm _ _).map fun r => r.ticker

/-- Claim C3, amended: in a full (non-skip-forecast) run with a nonnegative
forecast weight, nonnegative forecast scores and nonnegative pre-scores, every
row of the result set either carries a refreshed `Final_Score` in `[0, 0.99]`
(the top-20 rows the forecast pass updates: the boost caps at 0.99 and an
unboosted value stays at most 0.5) or retains `Final_Score = Pre_Score`
(everything outside the top 20) — which is *not* capped at 0.99 and is bounded
only by `w_tech·tech + w_fund·fund + w_sent·sent`; the same uncapped
`Final_Score = Pre_Score` carry-over is what fetch-only (skip-forecast) runs
leave in every row. -/
theorem c3_final_score_bounds (w : Weights) (topN : ℕ) (budget : ℚ)
    (forecastOf : String → ℚ) (results0 : List ResultRow)
    (hwf : 0 ≤ w.forecast.getD 0) (hfc : ∀ t, 0 ≤ forecastOf t)
    (hpre : ∀ r ∈ results0, 0 ≤ r.preScore) :
    ∀ r ∈ (finalizePhase w false topN budget forecastOf results0).1,
      0 ≤ r.finalScore ∧ (r.finalScore ≤ 99 / 100 ∨ r.finalScore = r.preScore) := by
  intro r hr
  unfold finalizePhase at hr
  by_cases h0 : results0.isEmpty
  · rw [if_pos h0] at hr
    simp at hr
  · rw [if_neg h0] at hr
    simp only [Bool.false_eq_true, if_false] at hr
    rw [mem_sortDesc, List.mem_map] at hr
    obtain ⟨r1, hr1, hmerge⟩ := hr
    have hr1pre : 0 ≤ r1.preScore := hpre r1 (mem_sortDesc.mp hr1)
    unfold mergeRow at hmerge
    rcases hlk : ((((sortDesc (fun r => r.preScore) results0).take 20).map
        (forecastUpdate w forecastOf)).reverse).lookup r1.ticker with _ | u
    · rw [hlk] at hmerge
      subst hmerge
      exact ⟨hr1pre, Or.inr rfl⟩
    · rw [hlk] at hmerge
      subst hmerge
      have hu : (r1.ticker, u) ∈
          (((sortDesc (fun r => r.preScore) results0).take 20).map
            (forecastUpdate w forecastOf)).reverse :=
        mem_of_lookup_eq_some hlk
      rw [List.mem_reverse, List.mem_map] at hu
      obtain ⟨rt, hrt, hpair⟩ := hu
      have hrtpre : 0 ≤ rt.preScore :=
        hpre rt (mem_sortDesc.mp (List.take_subset 20 _ hrt))
      have hfs0 : 0 ≤ rt.preScore + (w.forecast.getD 0) * forecastOf rt.ticker :=
        add_nonneg hrtpre (mul_nonneg hwf (hfc rt.ticker))
      have hu2 : u.2 =
          if 1 / 2 < rt.preScore + (w.forecast.getD 0) * forecastOf rt.ticker
          then min (99 / 100)
            ((rt.preScore + (w.forecast.getD 0) * forecastOf rt.ticker) * (12 / 10))
          else rt.preScore + (w.forecast.getD 0) * forecastOf rt.ticker := by
        have hsnd := congrArg (fun p => p.2.2) hpair
        unfold forecastUpdate at hsnd
        simp only at hsnd
        rw [← hsnd]
      simp only
      rw [hu2]
      split_ifs with hb
      · constructor
        · exact le_min (by norm_num) (by nlinarith)
        · exact Or.inl (min_le_left _ _)
      · constructor
        · exact hfs0
        · exact Or.inl (by linarith)

/-- A single already-scored row whose placeholder `Final_Score` equals its
`Pre_Score` of 1 (weights `technical = 1`, others 0, all sub-scores 1). -/
def c3Row : ResultRow := ⟨"AAA", 10, 1, 1, 1, 1, 0, 1⟩

/-- Claim C3, counterexample: a fetch-only (skip-forecast) run over one row
with nonnegative weights (technical 1, fundamental 0, sentiment 0, forecast
1/5) and all sub-scores in range leaves `Final_Score = Pre_Score = 1`, which
exceeds the claimed cap `0.99`. -/
theorem c3_cap_counterexample :
    (finalizePhase ⟨1, 0, 0, some (1 / 5)⟩ true 20 1000 (fun _ => 1) [c3Row]).1
      = [c3Row]
    ∧ 99 / 100 < c3Row.finalScore
    ∧ c3Row.finalScore = c3Row.preScore
    ∧ c3Row.preScore = 1 * c3Row.techScore + 0 * c3Row.fundScore
        + 0 * c3Row.sentScore := by
  refine ⟨rfl, by norm_num [c3Row], rfl, by norm_num [c3Row]⟩

/-- A one-row input for the C3 witness: pre-score 1/4. -/
def c3WRow : ResultRow := ⟨"BBB", 10, 1/4, 0, 0, 1/4, 0, 1/4⟩

/-- The weights used by the C3 witness. -/
def c3Weights : Weights := ⟨1/4, 0, 0, some (1/5)⟩

/-- Witness for C3 (amended), applied to a concrete one-row full run. -/
theorem c3_final_score_bounds_witness :
    0 ≤ ((finalizePhase c3Weights false 20 1000 (fun _ => 1) [c3WRow]).1.headD
      c3WRow).finalScore
    ∧ (((finalizePhase c3Weights false 20 1000 (fun _ => 1) [c3WRow]).1.headD
        c3WRow).finalScore ≤ 99 / 100
      ∨ ((finalizePhase c3Weights false 20 1000 (fun _ => 1) [c3WRow]).1.headD
        c3WRow).finalScore
        = ((finalizePhase c3Weights false 20 1000 (fun _ => 1) [c3WRow]).1.headD
          c3WRow).preScore) := by
  refine c3_final_score_bounds c3Weights 20 1000 (fun _ => 1) [c3WRow]
    (by norm_num [c3Weights]) (fun t => by norm_num)
    (by
      intro r hr
      rw [List.mem_singleton] at hr
      subst hr
      norm_num [c3WRow])
    _ ?_
  have hout : (finalizePhase c3Weights false 20 1000 (fun _ => 1) [c3WRow]).1
      = [{ c3WRow with forecastScore := 1, finalScore := 9 / 20 }] := by
    norm_num [finalizePhase, sortDesc, insertDesc, mergeRow, forecastUpdate,
      c3Weights, c3WRow, List.lookup, pyInt]
  rw [hout]
  simp

/-- One prior row for the C4 counterexample: pre-score 1/4, placeholder final
score 1/4. -/
def c4Row : ResultRow := ⟨"A", 10, 1, 0, 0, 1/4, 0, 1/4⟩

/-- The weights used by the C4 theorems. -/
def c4Weights : Weights := ⟨1/4, 0, 0, some (1/5)⟩

/-- Claim C4, counterexample: re-running the full analysis when the prior
result file already covers the whole universe performs no scan-phase work, but
the forecast pass still fetches history once for the (single) top candidate,
and the recomputed `Final_Score` changes the result set (1/4 becomes
1/4 + (1/5)·1 = 9/20): neither "no new fetches" nor "result set equal to the
prior one" holds. -/
theorem c4_refetch_counterexample :
    (runFullAnalysis ["A"] [c4Row] (fun _ => none) c4Weights false 20 1000
      (fun _ => 1)).processed = 0
    ∧ (runFullAnalysis ["A"] [c4Row] (fun _ => none) c4Weights false 20 1000
      (fun _ => 1)).scanFetches = 0
    ∧ (runFullAnalysis ["A"] [c4Row] (fun _ => none) c4Weights false 20 1000
      (fun _ => 1)).forecastFetches = 1
    ∧ (runFullAnalysis ["A"] [c4Row] (fun _ => none) c4Weights false 20 1000
      (fun _ => 1)).results
      = [{ c4Row with forecastScore := 1, finalScore := 9 / 20 }]
    ∧ ¬ (runFullAnalysis ["A"] [c4Row] (fun _ => none) c4Weights false 20 1000
      (fun _ => 1)).results = [c4Row] := by
  have hrun : runFullAnalysis ["A"] [c4Row] (fun _ => none) c4Weights false 20
      1000 (fun _ => 1)
      = { processed := 0, scanFetches := 0, forecastFetches := 1
          results := [{ c4Row with forecastScore := 1, finalScore := 9 / 20 }]
          recommendations := [⟨"A", 1000, 100⟩] } := by
    norm_num [runFullAnalysis, finalizePhase, sortDesc, insertDesc, mergeRow,
      forecastUpdate, c4Weights, c4Row, List.lookup, pyInt]
  rw [hrun]
  refine ⟨rfl, rfl, rfl, rfl, ?_⟩
  simp [c4Row]

/-- Claim C4, amended: re-running the full-analysis orchestrator when the
prior result file covers every entity of the universe performs no scan-phase
processing and no scan fetches, and the result set holds exactly the prior
entities (a permutation of the prior ticker column, re-sorted with recomputed
scores); but unless `skip_forecast` is set the forecast pass still performs
`min 20 N` fresh history fetches over a nonempty prior set. -/
theorem c4_resume_no_scan (univ : List String) (prior : List ResultRow)
    (perStock : String → Option ResultRow) (w : Weights) (skipForecast : Bool)
    (topN : ℕ) (budget : ℚ) (forecastOf : String → ℚ)
    (hcov : ∀ t ∈ univ, t ∈ prior.map fun r => r.ticker) :
    (runFullAnalysis univ prior perStock w skipForecast topN budget
      forecastOf).processed = 0
    ∧ (runFullAnalysis univ prior perStock w skipForecast topN budget
      forecastOf).scanFetches = 0
    ∧ (runFullAnalysis univ prior perStock w skipForecast topN budget
      forecastOf).forecastFetches
      = (if skipForecast || prior.isEmpty then 0 else min 20 prior.length)
    ∧ ((runFullAnalysis univ prior perStock w skipForecast topN budget
      forecastOf).results.map fun r => r.ticker).Perm
      (prior.map fun r => r.ticker) := by
  have htp : univ.filter (fun t => decide (t ∉ prior.map fun r => r.ticker)) = [] := by
    rw [List.filter_eq_nil_iff]
    intro t ht
    simp only [decide_eq_true_eq]
    exact fun hnot => hnot (hcov t ht)
  simp only [runFullAnalysis, htp, List.filterMap_nil, List.append_nil,
    List.length_nil, Nat.mul_zero]
  exact ⟨trivial, trivial, trivial, finalize_perm_tickers w skipForecast topN
    budget forecastOf prior⟩

/-- One prior row for the C4 witness. -/
def c4WRow : ResultRow := ⟨"W", 10, 0, 0, 0, 1/4, 0, 1/4⟩

/-- Witness for C4 (amended) on a one-entity universe fully covered by the
prior result set. -/
theorem c4_resume_no_scan_witness :
    (runFullAnalysis ["W"] [c4WRow] (fun _ => none) c4Weights false 20 1000
      (fun _ => 1)).processed = 0
    ∧ (runFullAnalysis ["W"] [c4WRow] (fun _ => none) c4Weights false 20 1000
      (fun _ => 1)).scanFetches = 0
    ∧ (runFullAnalysis ["W"] [c4WRow] (fun _ => none) c4Weights false 20 1000
      (fun _ => 1)).forecastFetches
      = (if false || ([c4WRow] : List ResultRow).isEmpty then 0
         else min 20 ([c4WRow] : List ResultRow).length)
    ∧ ((runFullAnalysis ["W"] [c4WRow] (fun _ => none) c4Weights false 20 1000
      (fun _ => 1)).results.map fun r => r.ticker).Perm
      ([c4WRow].map fun r => r.ticker) :=
  c4_resume_no_scan ["W"] [c4WRow] (fun _ => none) c4Weights false 20 1000
    (fun _ => 1) (by intro t ht; simpa [c4WRow] using ht)

/-! ### Claim C9 — the portfolio diff tracker -/

/-- A ledger whose most recent date `dp` holds exactly three `HOLD` entries,
for tickers `a`, `b`, `c`, preceded by an arbitrary older ledger prefix. -/
def c9History (old : List LedgerEntry) (dp : ℕ) (a b c : String)
    (na nb nc : String) (pa pb pc sa sb sc : ℚ) : List LedgerEntry :=
  old ++ [⟨dp, a, na, "HOLD", 1, pa, sa⟩, ⟨dp, b, nb, "HOLD", 2, pb, sb⟩,
          ⟨dp, c, nc, "HOLD", 3, pc, sc⟩]

/-- Claim C9: with yesterday's held set `{a, b, c}` (the `HOLD` entries of the
most recent prior date) and today's top set `{b, c, d}`, the diff tracker
emits exactly one record per held or changed entity — `b`, `c` as `HOLD`, `d`
as `NEW_ENTRY`, and `a` as `DROPOUT` carrying the ledger's last known name and
price (not refreshed) — with no duplicate tickers, and the new ledger is the
old one with exactly these records appended. -/
theorem c9_portfolio_diff
    (old : List LedgerEntry) (dp today : ℕ) (a b c d : String)
    (na nb nc : String) (pa pb pc sa sb sc : ℚ)
    (rowB rowC rowD : PortfolioRec)
    (hold : ∀ e ∈ old, e.date < dp)
    (hab : a ≠ b) (hac : a ≠ c) (had : a ≠ d)
    (hbc : b ≠ c) (hbd : b ≠ d) (hcd : c ≠ d)
    (hrb : rowB.ticker = b) (hrc : rowC.ticker = c) (hrd : rowD.ticker = d) :
    (updatePortfolio today (c9History old dp a b c na nb nc pa pb pc sa sb sc)
      [rowB, rowC, rowD]).1
      = [⟨today, b, rowB.name, "HOLD", 1, rowB.close, rowB.finalScore⟩,
         ⟨today, c, rowC.name, "HOLD", 2, rowC.close, rowC.finalScore⟩,
         ⟨today, d, rowD.name, "NEW_ENTRY", 3, rowD.close, rowD.finalScore⟩,
         ⟨today, a, na, "DROPOUT", -1, pa, 0⟩]
    ∧ (updatePortfolio today (c9History old dp a b c na nb nc pa pb pc sa sb sc)
      [rowB, rowC, rowD]).2
      = c9History old dp a b c na nb nc pa pb pc sa sb sc
        ++ (updatePortfolio today
          (c9History old dp a b c na nb nc pa pb pc sa sb sc)
          [rowB, rowC, rowD]).1
    ∧ ((updatePortfolio today (c9History old dp a b c na nb nc pa pb pc sa sb sc)
      [rowB, rowC, rowD]).1.map fun e => e.ticker).Nodup := by
  have hmax : (((c9History old dp a b c na nb nc pa pb pc sa sb sc).map
      fun e => e.date).max?) = some dp := by
    rw [List.max?_eq_some_iff']
    constructor
    · simp [c9History]
    · intro x hx
      simp only [c9History, List.map_append, List.mem_append, List.map_cons,
        List.map_nil, List.mem_cons, List.mem_map,
        List.not_mem_nil, or_false] at hx
      rcases hx with ⟨e, he, hex⟩ | hx | hx | hx
      · subst hex
        exact le_of_lt (hold e he)
      all_goals omega
  have hlast : ((((c9History old dp a b c na nb nc pa pb pc sa sb sc).map
      fun e => e.date).max?).getD 0) = dp := by
    rw [hmax]
    rfl
  have hne : (c9History old dp a b c na nb nc pa pb pc sa sb sc).isEmpty
      = false := by
    simp [c9History]
  have hfo1 : old.filter
      (fun e => decide (e.date = dp) && decide (e.action = "HOLD")) = [] := by
    rw [List.filter_eq_nil_iff]
    intro e he
    simp only [Bool.and_eq_true, decide_eq_true_eq, not_and]
    intro h1 _
    have := hold e he
    omega
  have hfo2 : old.filter
      (fun e => decide (e.date = dp) && decide (e.ticker = a)) = [] := by
    rw [List.filter_eq_nil_iff]
    intro e he
    simp only [Bool.and_eq_true, decide_eq_true_eq, not_and]
    intro h1 _
    have := hold e he
    omega
  have hfilter1 : (c9History old dp a b c na nb nc pa pb pc sa sb sc).filter
      (fun e => decide (e.date = dp) && decide (e.action = "HOLD"))
      = [⟨dp, a, na, "HOLD", 1, pa, sa⟩, ⟨dp, b, nb, "HOLD", 2, pb, sb⟩,
         ⟨dp, c, nc, "HOLD", 3, pc, sc⟩] := by
    unfold c9History
    rw [List.filter_append, hfo1]
    simp
  have hfilter2 : (c9History old dp a b c na nb nc pa pb pc sa sb sc).filter
      (fun e => decide (e.date = dp) && decide (e.ticker = a))
      = [⟨dp, a, na, "HOLD", 1, pa, sa⟩] := by
    unfold c9History
    rw [List.filter_append, hfo2]
    simp [Ne.symm hab, Ne.symm hac]
  have hdedup : dedupFirst [a, b, c] = [a, b, c] := by
    simp [dedupFirst, Ne.symm hab, Ne.symm hac, Ne.symm hbc]
  have hfind : (c9History old dp a b c na nb nc pa pb pc sa sb sc).find?
      (fun e => decide (e.date = dp) && decide (e.ticker = a))
      = some ⟨dp, a, na, "HOLD", 1, pa, sa⟩ := by
    rw [← List.filter_head?, hfilter2]
    rfl
  have hmain : updatePortfolio today
      (c9History old dp a b c na nb nc pa pb pc sa sb sc) [rowB, rowC, rowD]
      = ([⟨today, b, rowB.name, "HOLD", 1, rowB.close, rowB.finalScore⟩,
          ⟨today, c, rowC.name, "HOLD", 2, rowC.close, rowC.finalScore⟩,
          ⟨today, d, rowD.name, "NEW_ENTRY", 3, rowD.close, rowD.finalScore⟩,
          ⟨today, a, na, "DROPOUT", -1, pa, 0⟩],
         c9History old dp a b c na nb nc pa pb pc sa sb sc
          ++ [⟨today, b, rowB.name, "HOLD", 1, rowB.close, rowB.finalScore⟩,
              ⟨today, c, rowC.name, "HOLD", 2, rowC.close, rowC.finalScore⟩,
              ⟨today, d, rowD.name, "NEW_ENTRY", 3, rowD.close, rowD.finalScore⟩,
              ⟨today, a, na, "DROPOUT", -1, pa, 0⟩]) := by
    simp only [updatePortfolio, hlast, hne, Bool.false_eq_true, if_false,
      hfilter1, hfilter2, List.map_cons, List.map_nil, hdedup, List.enum,
      List.enumFrom, hrb, hrc, hrd]
    simp [hab, hac, had, hbc, hbd, hcd, Ne.symm hab, Ne.symm hac,
      Ne.symm had, Ne.symm hbc, Ne.symm hbd, Ne.symm hcd, hfind]
  refine ⟨?_, ?_, ?_⟩
  · rw [hmain]
  · rw [hmain]
  · rw [hmain]
    simp [hab, hbc, hbd, hcd, Ne.symm hab, Ne.symm hac, Ne.symm had]

/-- Today's three recommendation rows for the C9 witness. -/
def c9RowB : PortfolioRec := ⟨"B", "NB2", 8, 1/2⟩

/-- Second of today's rows for the C9 witness. -/
def c9RowC : PortfolioRec := ⟨"C", "NC2", 9, 1/2⟩

/-- Third of today's rows for the C9 witness. -/
def c9RowD : PortfolioRec := ⟨"D", "ND", 10, 1/2⟩

/-- Witness for C9 at a concrete ledger and top set. -/
theorem c9_portfolio_diff_witness :
    (updatePortfolio 2 (c9History [] 1 "A" "B" "C" "NA" "NB" "NC" 5 6 7 1 2 3)
      [c9RowB, c9RowC, c9RowD]).1
      = [⟨2, "B", c9RowB.name, "HOLD", 1, c9RowB.close, c9RowB.finalScore⟩,
         ⟨2, "C", c9RowC.name, "HOLD", 2, c9RowC.close, c9RowC.finalScore⟩,
         ⟨2, "D", c9RowD.name, "NEW_ENTRY", 3, c9RowD.close, c9RowD.finalScore⟩,
         ⟨2, "A", "NA", "DROPOUT", -1, 5, 0⟩]
    ∧ (updatePortfolio 2 (c9History [] 1 "A" "B" "C" "NA" "NB" "NC" 5 6 7 1 2 3)
      [c9RowB, c9RowC, c9RowD]).2
      = c9History [] 1 "A" "B" "C" "NA" "NB" "NC" 5 6 7 1 2 3
        ++ (updatePortfolio 2
          (c9History [] 1 "A" "B" "C" "NA" "NB" "NC" 5 6 7 1 2 3)
          [c9RowB, c9RowC, c9RowD]).1
    ∧ ((updatePortfolio 2 (c9History [] 1 "A" "B" "C" "NA" "NB" "NC" 5 6 7 1 2 3)
      [c9RowB, c9RowC, c9RowD]).1.map fun e => e.ticker).Nodup :=
  c9_portfolio_diff [] 1 2 "A" "B" "C" "D" "NA" "NB" "NC" 5 6 7 1 2 3
    c9RowB c9RowC c9RowD (by simp) (by decide) (by decide) (by decide)
    (by decide) (by decide) (by decide) rfl rfl rfl

end StockTicker
